import Mathlib

/-!
Shallow embedding of the `ip-tracker` repository's Visit Store + Realtime
Fan-out core, and proofs about it.

The repository ships two server variants:
* `src/unnamed/part_000` — file-backed JSONL store (`readVisits`,
  `writeVisit`, `geolocateIp`, `/track`, `/api/search`, `/api/hits`,
  socket.io `join-admin`);
* `src/server.js` — sqlite-backed store with bcrypt IP hashing
  (`processIp`, `/track`, `/api/search`, `join-admin`).

Pure JS functions are translated into Lean functions over `List Char` /
`String`; JS `undefined`/missing values become `Option`; JS truthiness is
modelled explicitly (`jsTruthy`, `jsOrStr`); the JS number `NaN` produced by
`parseInt` is modelled as `none : Option Int`.  Machine floats never matter
to any property proved here: the only numeric fields the read path consumes
are integer timestamps, so JSON numbers are carried by their integer part
(fraction and exponent lexemes are consumed and validated but not
evaluated; geo `lat`/`lon` floats are not modelled and are read by no
theorem).
-/

namespace IpTracker

/-! ## JSON values (the result of `JSON.parse`) -/

inductive JValue where
  | null
  | bool (b : Bool)
  | num (n : Int)
  | str (s : String)
  | arr (elems : List JValue)
  | obj (fields : List (String × JValue))
deriving Repr, BEq

/-- JS truthiness of a value produced by `JSON.parse` (used by
`Array.prototype.filter(Boolean)` and by `x || y` defaults):
`null`, `false`, `0` and `""` are falsy, everything else truthy. -/
def jsTruthy : JValue → Bool
  | JValue.null => false
  | JValue.bool b => b
  | JValue.num n => n != 0
  | JValue.str s => s != ""
  | JValue.arr _ => true
  | JValue.obj _ => true

mutual

/-- JS `ToString` of a value: used when `Array.prototype.join` stringifies
the field values collected into the search blob. -/
def jsToStr : JValue → String
  | JValue.null => "null"
  | JValue.bool b => if b then "true" else "false"
  | JValue.num n => toString n
  | JValue.str s => s
  | JValue.arr xs => String.intercalate "," (jsToStrList xs)
  | JValue.obj _ => "[object Object]"

/-- Element stringification for `Array.prototype.join`: a `null` element
joins as the empty string, per JS. -/
def jsToStrList : List JValue → List String
  | [] => []
  | JValue.null :: xs => "" :: jsToStrList xs
  | x :: xs => jsToStr x :: jsToStrList xs

end

/-! ## A JSON parser (the behaviour of `JSON.parse` on one log line)

Recursion is by fuel; `parseJson` supplies fuel `length + 1`, which is
enough because every nested parser call strictly consumes input.  Two
documented approximations, neither observable by any theorem below: JSON
numbers are carried by their integer part (fraction/exponent lexemes are
still required to be well-formed), and leading zeros in numerals are not
rejected. -/

/-- JSON insignificant whitespace. -/
def isJsonWs (c : Char) : Bool :=
  c = ' ' || c = '\t' || c = '\n' || c = '\r'

def skipWs : List Char → List Char
  | [] => []
  | c :: cs => if isJsonWs c then skipWs cs else c :: cs

def hexVal (c : Char) : Option Nat :=
  if '0' ≤ c ∧ c ≤ '9' then some (c.toNat - 48)
  else if 'a' ≤ c ∧ c ≤ 'f' then some (c.toNat - 87)
  else if 'A' ≤ c ∧ c ≤ 'F' then some (c.toNat - 55)
  else none

/-- Parse the body of a JSON string after the opening quote, returning the
decoded characters and the input remaining after the closing quote.
Unterminated strings and bad escapes fail (`none`). -/
def parseStrChars : List Char → Option (List Char × List Char)
  | [] => none
  | '"' :: rest => some ([], rest)
  | '\\' :: rest =>
    match rest with
    | '"' :: r => (parseStrChars r).map (fun p => ('"' :: p.1, p.2))
    | '\\' :: r => (parseStrChars r).map (fun p => ('\\' :: p.1, p.2))
    | '/' :: r => (parseStrChars r).map (fun p => ('/' :: p.1, p.2))
    | 'b' :: r => (parseStrChars r).map (fun p => ('\x08' :: p.1, p.2))
    | 'f' :: r => (parseStrChars r).map (fun p => ('\x0c' :: p.1, p.2))
    | 'n' :: r => (parseStrChars r).map (fun p => ('\n' :: p.1, p.2))
    | 'r' :: r => (parseStrChars r).map (fun p => ('\r' :: p.1, p.2))
    | 't' :: r => (parseStrChars r).map (fun p => ('\t' :: p.1, p.2))
    | 'u' :: a :: b :: c :: d :: r =>
      match hexVal a, hexVal b, hexVal c, hexVal d with
      | some ha, some hb, some hc, some hd =>
        let n := ((ha * 16 + hb) * 16 + hc) * 16 + hd
        (parseStrChars r).map (fun p => (Char.ofNat n :: p.1, p.2))
      | _, _, _, _ => none
    | _ => none
  | c :: rest => (parseStrChars rest).map (fun p => (c :: p.1, p.2))

def digitsToNat (ds : List Char) : Nat :=
  ds.foldl (fun acc c => acc * 10 + (c.toNat - 48)) 0

/-- Consume an optional exponent lexeme (`e`/`E`, sign, at least one digit)
and return the number value (integer part) with the remaining input. -/
def parseExpPart (v : Int) (cs : List Char) : Option (JValue × List Char) :=
  match cs with
  | 'e' :: r =>
    match r with
    | '-' :: r2 =>
      let p := r2.span Char.isDigit
      if p.1.isEmpty then none else some (JValue.num v, p.2)
    | '+' :: r2 =>
      let p := r2.span Char.isDigit
      if p.1.isEmpty then none else some (JValue.num v, p.2)
    | _ =>
      let p := r.span Char.isDigit
      if p.1.isEmpty then none else some (JValue.num v, p.2)
  | 'E' :: r =>
    match r with
    | '-' :: r2 =>
      let p := r2.span Char.isDigit
      if p.1.isEmpty then none else some (JValue.num v, p.2)
    | '+' :: r2 =>
      let p := r2.span Char.isDigit
      if p.1.isEmpty then none else some (JValue.num v, p.2)
    | _ =>
      let p := r.span Char.isDigit
      if p.1.isEmpty then none else some (JValue.num v, p.2)
  | _ => some (JValue.num v, cs)

/-- Parse a JSON number (integer part retained; fraction digits required
after a decimal point, as in JSON). -/
def parseNum (cs : List Char) : Option (JValue × List Char) :=
  let sgn := match cs with
    | '-' :: r => (true, r)
    | _ => (false, cs)
  let p := sgn.2.span Char.isDigit
  if p.1.isEmpty then none
  else
    let v : Int := if sgn.1 then -(Int.ofNat (digitsToNat p.1)) else Int.ofNat (digitsToNat p.1)
    match p.2 with
    | '.' :: r =>
      let q := r.span Char.isDigit
      if q.1.isEmpty then none else parseExpPart v q.2
    | rest => parseExpPart v rest

mutual

/-- Parse one JSON value (after skipping leading whitespace). -/
def parseValue : Nat → List Char → Option (JValue × List Char)
  | 0, _ => none
  | fuel + 1, cs =>
    match skipWs cs with
    | [] => none
    | '"' :: rest => (parseStrChars rest).map (fun p => (JValue.str ⟨p.1⟩, p.2))
    | '{' :: rest =>
      match skipWs rest with
      | '}' :: rest2 => some (JValue.obj [], rest2)
      | other => (parseMembers fuel other).map (fun p => (JValue.obj p.1, p.2))
    | '[' :: rest =>
      match skipWs rest with
      | ']' :: rest2 => some (JValue.arr [], rest2)
      | other => (parseElems fuel other).map (fun p => (JValue.arr p.1, p.2))
    | 't' :: rest =>
      if ['r', 'u', 'e'].isPrefixOf rest then some (JValue.bool true, rest.drop 3) else none
    | 'f' :: rest =>
      if ['a', 'l', 's', 'e'].isPrefixOf rest then some (JValue.bool false, rest.drop 4) else none
    | 'n' :: rest =>
      if ['u', 'l', 'l'].isPrefixOf rest then some (JValue.null, rest.drop 3) else none
    | c :: rest =>
      if c = '-' ∨ c.isDigit then parseNum (c :: rest) else none

/-- Parse the members of a JSON object after `{` (at least one member). -/
def parseMembers : Nat → List Char → Option (List (String × JValue) × List Char)
  | 0, _ => none
  | fuel + 1, cs =>
    match skipWs cs with
    | '"' :: rest =>
      match parseStrChars rest with
      | some (key, rest2) =>
        match skipWs rest2 with
        | ':' :: rest3 =>
          match parseValue fuel rest3 with
          | some (v, rest4) =>
            match skipWs rest4 with
            | ',' :: rest5 =>
              (parseMembers fuel rest5).map (fun p => ((⟨key⟩, v) :: p.1, p.2))
            | '}' :: rest5 => some ([(⟨key⟩, v)], rest5)
            | _ => none
          | none => none
        | _ => none
      | none => none
    | _ => none

/-- Parse the elements of a JSON array after `[` (at least one element). -/
def parseElems : Nat → List Char → Option (List JValue × List Char)
  | 0, _ => none
  | fuel + 1, cs =>
    match parseValue fuel cs with
    | some (v, rest) =>
      match skipWs rest with
      | ',' :: rest2 => (parseElems fuel rest2).map (fun p => (v :: p.1, p.2))
      | ']' :: rest2 => some ([v], rest2)
      | _ => none
    | none => none

end

/-- `JSON.parse` on one string: a single JSON value followed only by
whitespace; anything else throws in JS, modelled as `none`. -/
def parseJson (s : String) : Option JValue :=
  match parseValue (s.data.length + 1) s.data with
  | some (v, rest) => if skipWs rest = [] then some v else none
  | none => none

/-! ## JS string/number helpers used by the handlers -/

/-- `a || d` for an optional string `a` (missing or empty ⇒ default). -/
def jsOrStr (a : Option String) (d : String) : String :=
  match a with
  | some s => if s = "" then d else s
  | none => d

/-- Char-wise lowercasing: `String.prototype.toLowerCase` (ASCII; the
non-ASCII corners of Unicode lowercasing are outside this embedding). -/
def lowerStr (s : String) : String := ⟨s.data.map Char.toLower⟩

/-- `String.prototype.trim`. -/
def trimStr (s : String) : String :=
  ⟨((s.data.dropWhile isJsonWs).reverse.dropWhile isJsonWs).reverse⟩

def inclAux (needle : List Char) (hay : List Char) : Bool :=
  needle.isPrefixOf hay ||
    match hay with
    | [] => false
    | _ :: rest => inclAux needle rest

/-- `hay.includes(needle)` — substring test. -/
def strIncludes (hay needle : String) : Bool := inclAux needle.data hay.data

def splitOnCharAux (sep : Char) : List Char → List Char → List String
  | [], acc => [⟨acc.reverse⟩]
  | c :: cs, acc =>
    if c = sep then ⟨acc.reverse⟩ :: splitOnCharAux sep cs []
    else splitOnCharAux sep cs (c :: acc)

/-- `String.prototype.split` with a single-character separator (used for
`split('\n')` over the log file and `split(',')` over a forwarded-for
header).  Like JS, `"".split(c) = [""]` and a trailing separator yields a
trailing empty segment. -/
def splitOnChar (sep : Char) (s : String) : List String :=
  splitOnCharAux sep s.data []

/-- `parseInt(s, 10)`: skip leading whitespace, optional sign, then the
longest digit prefix; no digits ⇒ `NaN`, modelled as `none`. -/
def parseIntJS (s : String) : Option Int :=
  let cs := s.data.dropWhile isJsonWs
  let sgn : Bool × List Char := match cs with
    | '-' :: r => (true, r)
    | '+' :: r => (false, r)
    | _ => (false, cs)
  let ds := sgn.2.takeWhile Char.isDigit
  if ds.isEmpty then none
  else if sgn.1 then some (-(Int.ofNat (digitsToNat ds))) else some (Int.ofNat (digitsToNat ds))

/-- `Math.min(a, b)` where `a` may be `NaN` (`none`): `NaN` propagates. -/
def jsMinNaN (a : Option Int) (b : Int) : Option Int :=
  a.map (fun x => min x b)

/-- `parseInt(...) || 0`: `NaN` (and `0` itself) collapse to `0`. -/
def jsOrZero (a : Option Int) : Int :=
  match a with
  | some n => n
  | none => 0

/-- `Array.prototype.slice(start, stop)` with ECMAScript index clamping;
`stop = none` models a `NaN` end index, which `ToIntegerOrInfinity` maps
to `0`. -/
def jsSlice {α : Type} (l : List α) (start : Int) (stop : Option Int) : List α :=
  let len : Int := (l.length : Int)
  let s : Int := if start < 0 then max (len + start) 0 else min start len
  let stopv : Int := match stop with
    | some i => i
    | none => 0
  let e : Int := if stopv < 0 then max (len + stopv) 0 else min stopv len
  (l.take e.toNat).drop s.toNat

/-! ## The file-backed Visit Store read path — `readVisits`
(src/unnamed/part_000 lines 60–77) -/

/-- Last-wins lookup of a key in a parsed JSON object (later duplicate keys
overwrite earlier ones in `JSON.parse`). -/
def jget (fields : List (String × JValue)) (k : String) : Option JValue :=
  match fields.reverse.find? (fun f => f.1 == k) with
  | some f => some f.2
  | none => none

/-- `v.k || ''` prepared for `join`: the property value stringified when
truthy, the empty string when the property is missing, the receiver is not
an object, or the value is falsy. -/
def fieldOr (v : JValue) (k : String) : String :=
  match v with
  | JValue.obj fs =>
    match jget fs k with
    | some x => if jsTruthy x then jsToStr x else ""
    | none => ""
  | _ => ""

/-- `v.geo?.k || ''`: optional chaining through the `geo` property. -/
def geoFieldOr (v : JValue) (k : String) : String :=
  match v with
  | JValue.obj fs =>
    match jget fs "geo" with
    | some g => fieldOr g k
    | none => ""
  | _ => ""

/-- The search blob of one record:
`[v.ip||'', v.path||'', v.ua||'', v.referer||'', v.geo?.city||'',
v.geo?.region||'', v.geo?.country||''].join(' ').toLowerCase()`. -/
def blob (v : JValue) : String :=
  lowerStr (String.intercalate " "
    [fieldOr v "ip", fieldOr v "path", fieldOr v "ua", fieldOr v "referer",
     geoFieldOr v "city", geoFieldOr v "region", geoFieldOr v "country"])

/-- Whether a record matches a (pre-lowercased) search term:
`blob.includes(term)`. -/
def matchesTerm (term : String) (v : JValue) : Bool :=
  strIncludes (blob v) (lowerStr term)

/-- One log line through `JSON.parse` and the subsequent
`.filter(Boolean)`: parse failures (`null` from the catch) and falsy parse
results are dropped. -/
def parseVisitLine (l : String) : Option JValue :=
  match parseJson l with
  | some v => if jsTruthy v then some v else none
  | none => none

/-- The parsed records of the log file in append order:
`split('\n').filter(Boolean)` then parse-and-drop-failures. -/
def storeRecords (file : String) : List JValue :=
  ((splitOnChar '\n' file).filter (fun l => l ≠ "")).filterMap parseVisitLine

/-- The `term ? data.filter(...) : data` ternary of `readVisits`. -/
def termFilter (term : String) (data : List JValue) : List JValue :=
  if term ≠ "" then data.filter (fun v => strIncludes (blob v) term) else data

/-- `readVisits(q, limit, offset)` over the file contents: parse the lines
(skipping empties and unparseable entries), newest first, filter by the
lowercased term, then `slice(offset, offset + limit)`.  `limit = none`
models the `NaN` produced upstream by `parseInt` on a non-numeric limit
parameter. -/
def readVisits (file : String) (q : String) (limit : Option Int) (offset : Int) :
    List JValue :=
  let term := lowerStr q
  let data := (storeRecords file).reverse
  let filtered := termFilter term data
  jsSlice filtered offset (limit.map (fun lim => offset + lim))

/-! ## Geo enrichment  (src/unnamed/part_000 lines 91–128)

The outbound `fetch` to ipinfo is the external world: it is passed in as an
oracle `net : String → Option GeoResp`, where `none` models a network
error, a non-ok response or a JSON failure.  The adapter's numeric
`lat`/`lon` enrichment (JS floats from `j.loc`) is outside this integer
embedding and is read by no claim; the `city`/`region`/`country` fields the
read path and the blob consume are modelled exactly. -/

structure GeoResp where
  city : Option String
  region : Option String
  country : Option String
deriving Repr, DecidableEq

structure Geo where
  city : String
  region : String
  country : String
deriving Repr, DecidableEq

/-- The `GEO_CACHE` map: newest binding first. -/
def GeoCache := List (String × (Geo × Int))

instance : DecidableEq GeoCache := by
  unfold GeoCache
  infer_instance

/-- `geoGet(ip)`: cached value if present and younger than the 6 h TTL. -/
def geoGet (cache : GeoCache) (now : Int) (ip : String) : Option Geo :=
  match cache.find? (fun e => e.1 == ip) with
  | some e => if now - e.2.2 < 6 * 60 * 60 * 1000 then some e.2.1 else none
  | none => none

/-- `geoPut(ip, data)`. -/
def geoPut (cache : GeoCache) (ip : String) (data : Geo) (now : Int) : GeoCache :=
  (ip, (data, now)) :: cache

/-- Strip the IPv6-mapped-IPv4 prefix: `replace(/^::ffff:/, '')`. -/
def stripMapped (s : String) : String :=
  if ("::ffff:".data).isPrefixOf s.data then ⟨s.data.drop 7⟩ else s

/-- `geolocateIp(ipRaw)` of the file-backed variant.  Returns the resolved
geo (if any), the updated cache, and whether an outbound fetch was
performed (the instrumentation the temporal claims are about). -/
def geolocateIp (token : String) (net : String → Option GeoResp) (now : Int)
    (cache : GeoCache) (ipRaw : String) : Option Geo × GeoCache × Bool :=
  if token = "" then (none, cache, false)
  else if ipRaw = "" then (none, cache, false)
  else
    let ip := stripMapped ipRaw
    if ip = "127.0.0.1" ∨ ip = "::1" then (none, cache, false)
    else
      match geoGet cache now ip with
      | some cached => (some cached, cache, false)
      | none =>
        match net ip with
        | none => (none, cache, true)
        | some j =>
          let out : Geo :=
            { city := jsOrStr j.city "", region := jsOrStr j.region "",
              country := jsOrStr j.country "" }
          (some out, geoPut cache ip out now, true)

/-! ## The `/track` ingestion handler — file-backed variant
(src/unnamed/part_000 lines 79–84 and 166–183) -/

structure TrackRequest where
  xForwardedFor : Option String
  reqIp : Option String
  remoteAddress : Option String
  userAgent : Option String
  bodyUa : Option String
  bodyPath : Option String
  bodyUrl : Option String
  referer : Option String
deriving Repr, DecidableEq

/-- `getClientIp(req)`: first entry of `x-forwarded-for` when that header
is truthy, else `req.ip || req.connection?.remoteAddress || ''`. -/
def getClientIp (req : TrackRequest) : String :=
  match req.xForwardedFor with
  | some xf =>
    if xf ≠ "" then trimStr ((splitOnChar ',' xf).headD "")
    else jsOrStr req.reqIp (jsOrStr req.remoteAddress "")
  | none => jsOrStr req.reqIp (jsOrStr req.remoteAddress "")

structure Visit where
  ip : String
  ua : String
  path : String
  referer : String
  ts : Int
  geo : Option Geo
deriving Repr, DecidableEq

structure TrackResult where
  visit : Visit
  emitted : Visit
  fetched : Bool
  cache : GeoCache
deriving DecidableEq

/-- The POST `/track` handler of the file-backed variant: derives the
client IP, replaces it with the `'[anon]'` placeholder when `ANONYMIZE` is
set, skips geo resolution in that mode, builds the visit, and both
persists it (`writeVisit`) and emits the same object as the `visit` event
to the `admins` room.  `visit` is the record handed to the store, `emitted`
the realtime payload. -/
def handleTrack (anonymize : Bool) (token : String)
    (net : String → Option GeoResp) (cache : GeoCache) (nowMs : Int)
    (req : TrackRequest) : TrackResult :=
  let ipRaw := getClientIp req
  let ip := if anonymize then "[anon]" else ipRaw
  let ua := jsOrStr req.userAgent (jsOrStr req.bodyUa "")
  let pathHit := jsOrStr req.bodyPath (jsOrStr req.bodyUrl (jsOrStr req.referer ""))
  let referer := jsOrStr req.referer ""
  let ts := nowMs.fdiv 1000
  let g := if ¬ anonymize then geolocateIp token net nowMs cache ipRaw
           else (none, cache, false)
  let visit : Visit :=
    { ip := ip, ua := ua, path := pathHit, referer := referer, ts := ts, geo := g.1 }
  { visit := visit, emitted := visit, fetched := g.2.2, cache := g.2.1 }

/-! ## The `/track` ingestion handler — sqlite variant
(src/server.js lines 65–109) -/

/-- `getClientIp(req)` of the sqlite variant: identical except the final
fallback is the string `'unknown'`. -/
def getClientIpSql (req : TrackRequest) : String :=
  match req.xForwardedFor with
  | some xf =>
    if xf ≠ "" then trimStr ((splitOnChar ',' xf).headD "")
    else jsOrStr req.reqIp (jsOrStr req.remoteAddress "unknown")
  | none => jsOrStr req.reqIp (jsOrStr req.remoteAddress "unknown")

/-- `processIp(ip)`: the raw IP when anonymization is off, otherwise the
bcrypt hash of it.  The hashing function is a parameter because the bcrypt
library is an external dependency, not repository code. -/
def processIp (anonymize : Bool) (bhash : String → String) (ip : String) : String :=
  if anonymize then bhash ip else ip

/-- Modelled from the spec: the external `bcrypt` library's `hash`
(a dependency, absent from src/).  src/server.js calls
`bcrypt.hash(ip, 10)` as a one-way transform; a bcrypt digest is
`$2b$<cost>$<salt-and-checksum>` and in particular always begins with the
`"$2b$"` algorithm prefix and never equals its plaintext input.  Only that
digest shape is relied on below, so the digest body is modelled as the
identity on the input. -/
def bcryptHashModel (ip : String) : String := "$2b$10$" ++ ip

structure SqlTrackResult where
  storedIp : String
  emittedIp : String
  ts : Int
deriving Repr, DecidableEq

/-- The POST `/track` handler of the sqlite variant, restricted to the two
fields the anonymization claims are about: the `ip` column bound by
`insertStmt.run` and the `ip` field of the emitted `visit` payload
(`ANONYMIZE ? '[anon]' : ip`). -/
def handleTrackSql (anonymize : Bool) (bhash : String → String) (nowMs : Int)
    (req : TrackRequest) : SqlTrackResult :=
  let ipRaw := getClientIpSql req
  let ip := processIp anonymize bhash ipRaw
  { storedIp := ip
    emittedIp := if anonymize then "[anon]" else ip
    ts := nowMs.fdiv 1000 }

/-! ## Admin query service  (src/unnamed/part_000 lines 86–89 and 186–198) -/

structure AdminSession where
  authed : Bool
deriving Repr, DecidableEq

/-- `requireAuth`: `req.session && req.session.authed`. -/
def requireAuth (sess : Option AdminSession) : Bool :=
  match sess with
  | some s => s.authed
  | none => false

structure SearchQuery where
  q : Option String
  limit : Option String
  offset : Option String
deriving Repr, DecidableEq

/-- The route outcome: `unauthorized` is `res.status(401).send('Unauthorized')`
(the middleware short-circuits and no rows are produced); `rows` is the
JSON body. -/
inductive SearchResponse where
  | unauthorized
  | rows (rows : List JValue)
deriving BEq

/-- GET `/api/search`: behind `requireAuth`; `q = req.query.q || ''`,
`limit = Math.min(parseInt(req.query.limit || '200', 10), 2000)`,
`offset = parseInt(req.query.offset || '0', 10) || 0`. -/
def apiSearch (sess : Option AdminSession) (file : String) (query : SearchQuery) :
    SearchResponse :=
  if requireAuth sess then
    let q := jsOrStr query.q ""
    let limit := jsMinNaN (parseIntJS (jsOrStr query.limit "200")) 2000
    let offset := jsOrZero (parseIntJS (jsOrStr query.offset "0"))
    SearchResponse.rows (readVisits file q limit offset)
  else SearchResponse.unauthorized

/-- GET `/api/hits` (legacy alias): behind `requireAuth`;
`readVisits('', 100, 0)`. -/
def apiHits (sess : Option AdminSession) (file : String) : SearchResponse :=
  if requireAuth sess then
    SearchResponse.rows (readVisits file "" (some 100) 0)
  else SearchResponse.unauthorized

/-! ## Realtime fan-out  (src/unnamed/part_000 lines 200–203,
src/server.js lines 169–182)

Both variants register `socket.on('join-admin', () => socket.join('admins'))`
with no session check (src/server.js additionally runs an `io.use`
middleware that calls `next()` unconditionally).  `sessionAuthed` records
whether the connection holds a valid authenticated AdminSession; the
handler never consults it. -/

structure SocketConn where
  sessionAuthed : Bool
  rooms : List String
deriving Repr, DecidableEq

/-- The `join-admin` event handler: `socket.join('admins')`,
unconditionally. -/
def joinAdminHandler (s : SocketConn) : SocketConn :=
  { s with rooms := "admins" :: s.rooms }

/-- Whether a connection is a member of the admin broadcast group. -/
def inAdminsRoom (s : SocketConn) : Bool := s.rooms.contains "admins"

/-- `io.to('admins').emit('visit', v)`: the connections that receive the
`visit` event. -/
def visitRecipients (socks : List SocketConn) : List SocketConn :=
  socks.filter inAdminsRoom

/-! ## Rate limiting  (src/unnamed/part_000 lines 131–136,
src/server.js lines 37–42)

Modelled from the spec: the `express-rate-limit` middleware is an external
dependency (only its configuration `windowMs: 60 * 1000, max: 120` is
repository code), and the spec fixes its contract — "bound accepted
submissions per client-derived key (e.g., 120 per 60-second window);
over-limit requests are rejected with a rate-limit error and not
persisted".  We model the fixed-window counter: a request whose
incremented per-key count within the current window exceeds `max` is
rejected before the handler runs, so nothing is appended to the store. -/

def limiterWindowMs : Int := 60 * 1000

def limiterMax : Nat := 120

structure LimiterState where
  windowStart : Int
  hits : List (String × Nat)
deriving Repr, DecidableEq

def limiterCount (hits : List (String × Nat)) (key : String) : Nat :=
  match hits.find? (fun e => e.1 == key) with
  | some e => e.2
  | none => 0

/-- One request through the fixed-window limiter: reset the window if
expired, increment the key's counter, accept iff it stays within `max`. -/
def limiterCheck (st : LimiterState) (now : Int) (key : String) :
    Bool × LimiterState :=
  let st := if now - st.windowStart ≥ limiterWindowMs
            then { windowStart := now, hits := [] }
            else st
  let c := limiterCount st.hits key + 1
  (decide (c ≤ limiterMax), { st with hits := (key, c) :: st.hits.filter (fun e => e.1 ≠ key) })

structure TrackSystem where
  limiter : LimiterState
  store : List Visit
deriving Repr, DecidableEq

inductive TrackOutcome where
  | accepted
  | rateLimited
deriving Repr, DecidableEq

/-- One `/track` submission through the limiter and, when accepted, the
store append; a rejected submission leaves the store untouched. -/
def trackStep (sys : TrackSystem) (now : Int) (key : String) (v : Visit) :
    TrackSystem × TrackOutcome :=
  let r := limiterCheck sys.limiter now key
  if r.1 then
    ({ limiter := r.2, store := sys.store ++ [v] }, TrackOutcome.accepted)
  else
    ({ limiter := r.2, store := sys.store }, TrackOutcome.rateLimited)

/-- The system state after `n` submissions from the same client key at the
same instant (all inside one fixed window). -/
def runTrackN (key : String) (v : Visit) (now : Int) : Nat → TrackSystem
  | 0 => { limiter := { windowStart := now, hits := [] }, store := [] }
  | n + 1 => (trackStep (runTrackN key v now n) now key v).1

/-! ## Sample data for concrete witnesses and counterexamples -/

/-- A well-formed log line as produced by `writeVisit` (no geo). -/
def lineA : String :=
  "\x7b\"ip\":\"1.2.3.4\",\"ua\":\"Mozilla\",\"path\":\"/home\",\"referer\":\"\",\"ts\":100,\"geo\":null\x7d"

/-- A well-formed log line with a geo object. -/
def lineB : String :=
  "\x7b\"ip\":\"5.6.7.8\",\"ua\":\"Bot\",\"path\":\"/x\",\"referer\":\"r\",\"ts\":200,\"geo\":\x7b\"city\":\"Springfield\",\"region\":\"IL\",\"country\":\"US\"\x7d\x7d"

/-- A two-record log; `lineA` was appended before `lineB`. -/
def sampleLog : String := lineA ++ "\n" ++ lineB

/-- A log line cut off mid-object, as after a crash mid-append. -/
def truncatedLine : String := "\x7b\"ip\":\"9.9.9.9\""

/-- The parsed form of `lineB`. -/
def recordB : JValue :=
  JValue.obj [("ip", JValue.str "5.6.7.8"), ("ua", JValue.str "Bot"),
    ("path", JValue.str "/x"), ("referer", JValue.str "r"),
    ("ts", JValue.num 200),
    ("geo", JValue.obj [("city", JValue.str "Springfield"),
      ("region", JValue.str "IL"), ("country", JValue.str "US")])]

def sampleVisit : Visit :=
  { ip := "203.0.113.5", ua := "UA", path := "/home", referer := "", ts := 0,
    geo := none }

/-- A request arriving through the proxy with a public client address. -/
def reqForwarded : TrackRequest :=
  { xForwardedFor := some "203.0.113.9", reqIp := none, remoteAddress := none,
    userAgent := some "UA", bodyUa := none, bodyPath := some "/home",
    bodyUrl := none, referer := none }

/-- The same request but from a private-range (RFC 1918) client address. -/
def reqPrivate : TrackRequest :=
  { reqForwarded with xForwardedFor := some "10.0.0.1" }

/-- The same request but from the IPv6-mapped loopback address. -/
def reqLoopback : TrackRequest :=
  { reqForwarded with xForwardedFor := some "::ffff:127.0.0.1" }

/-- A fetch oracle that always resolves. -/
def netSample : String → Option GeoResp :=
  fun _ =>
    some { city := some "Springfield", region := some "IL", country := some "US" }

/-! ## Helper lemmas -/

theorem inclAux_nil_needle (hay : List Char) : inclAux [] hay = true := by
  unfold inclAux
  simp [List.isPrefixOf]

theorem strIncludes_empty_needle (s : String) : strIncludes s "" = true :=
  inclAux_nil_needle s.data

theorem lowerStr_eq_empty_iff (s : String) : lowerStr s = "" ↔ s = "" := by
  constructor
  · intro h
    have hd : (lowerStr s).data = ([] : List Char) := by rw [h]
    have : s.data.map Char.toLower = [] := hd
    have hsd : s.data = [] := by
      cases hs : s.data with
      | nil => rfl
      | cons a l => rw [hs] at this; simp at this
    cases s
    simp_all
  · intro h
    rw [h]
    rfl

theorem jsSlice_nan {α : Type} (l : List α) (start : Int) :
    jsSlice l start none = [] := by
  unfold jsSlice
  have h0 : ¬ ((0 : Int) < 0) := by omega
  simp only [h0, if_false]
  have hmin : min (0 : Int) ((l.length : Int)) = 0 := by
    apply min_eq_left
    omega
  rw [hmin]
  simp

theorem jsSlice_zero_of_le {α : Type} (l : List α) (lim : Int)
    (h : (l.length : Int) ≤ lim) : jsSlice l 0 (some (0 + lim)) = l := by
  unfold jsSlice
  have hlen : (0 : Int) ≤ (l.length : Int) := by omega
  have hs : (if (0 : Int) < 0 then max ((l.length : Int) + 0) 0
             else min 0 ((l.length : Int))) = 0 := by
    rw [if_neg (by omega)]
    exact min_eq_left hlen
  have hlim0 : ¬ ((0 + lim : Int) < 0) := by omega
  have he : (if (0 + lim : Int) < 0 then max ((l.length : Int) + (0 + lim)) 0
             else min (0 + lim) ((l.length : Int))) = (l.length : Int) := by
    rw [if_neg hlim0]
    apply min_eq_right
    omega
  simp only [hs, he]
  simp

theorem jsSlice_length_nat {α : Type} (l : List α) (off lim : Nat) :
    (jsSlice l (off : Int) (some ((off : Int) + (lim : Int)))).length =
      min (l.length - off) lim := by
  unfold jsSlice
  have hs : (if ((off : Int)) < 0 then max ((l.length : Int) + off) 0
             else min (off : Int) ((l.length : Int))) = min (off : Int) l.length := by
    rw [if_neg (by omega)]
  have he : (if ((off : Int) + (lim : Int)) < 0
             then max ((l.length : Int) + ((off : Int) + (lim : Int))) 0
             else min ((off : Int) + (lim : Int)) ((l.length : Int))) =
      min ((off : Int) + lim) l.length := by
    rw [if_neg (by omega)]
  simp only [hs, he, List.length_drop, List.length_take]
  omega

theorem termFilter_length_le (t : String) (l : List JValue) :
    (termFilter t l).length ≤ l.length := by
  unfold termFilter
  by_cases h : t ≠ ""
  · rw [if_pos h]
    exact List.length_filter_le _ _
  · rw [if_neg h]

theorem mem_of_mem_termFilter {t : String} {l : List JValue} {v : JValue}
    (h : v ∈ termFilter t l) : v ∈ l := by
  unfold termFilter at h
  by_cases ht : t ≠ ""
  · rw [if_pos ht] at h
    exact (List.mem_filter.mp h).1
  · rwa [if_neg ht] at h

theorem readVisits_eq_full (file q : String) (limit : Nat)
    (h : (storeRecords file).length ≤ limit) :
    readVisits file q (some (limit : Int)) 0 =
      termFilter (lowerStr q) ((storeRecords file).reverse) := by
  unfold readVisits
  simp only [Option.map_some']
  apply jsSlice_zero_of_le
  have h1 := termFilter_length_le (lowerStr q) ((storeRecords file).reverse)
  rw [List.length_reverse] at h1
  omega

theorem termFilter_length_mono (t1 t2 : String) (data : List JValue)
    (hmono : ∀ r : JValue, matchesTerm t2 r = true → matchesTerm t1 r = true) :
    (termFilter (lowerStr t2) data).length ≤ (termFilter (lowerStr t1) data).length := by
  have hpred : ∀ q : String,
      (fun v => strIncludes (blob v) (lowerStr q)) = matchesTerm q := by
    intro q
    rfl
  unfold termFilter
  by_cases h2 : lowerStr t2 ≠ ""
  · rw [if_pos h2]
    by_cases h1 : lowerStr t1 ≠ ""
    · rw [if_pos h1, hpred t1, hpred t2]
      rw [← List.countP_eq_length_filter, ← List.countP_eq_length_filter]
      exact List.countP_mono_left (fun x _ hx => hmono x hx)
    · rw [if_neg h1]
      exact List.length_filter_le _ _
  · rw [if_neg h2]
    by_cases h1 : lowerStr t1 ≠ ""
    · rw [if_pos h1, hpred t1]
      have hall : ∀ r ∈ data, matchesTerm t1 r = true := by
        intro r _
        apply hmono
        unfold matchesTerm
        push_neg at h2
        rw [h2]
        exact strIncludes_empty_needle _
      rw [List.filter_eq_self.mpr hall]
    · rw [if_neg h1]

theorem splitOnCharAux_no_sep (sep : Char) (ms : List Char) (h : sep ∉ ms) :
    ∀ acc, splitOnCharAux sep ms acc = [⟨acc.reverse ++ ms⟩] := by
  induction ms with
  | nil =>
    intro acc
    simp [splitOnCharAux]
  | cons c cs ih =>
    intro acc
    have hc : ¬ (c = sep) := by
      intro hc
      exact h (by rw [hc]; exact List.mem_cons_self _ _)
    unfold splitOnCharAux
    rw [if_neg hc]
    rw [ih (fun hm => h (List.mem_cons_of_mem _ hm)) (c :: acc)]
    simp

theorem splitOnCharAux_append_sep (sep : Char) (ms : List Char) (h : sep ∉ ms)
    (xs : List Char) :
    ∀ acc, splitOnCharAux sep (xs ++ sep :: ms) acc =
      splitOnCharAux sep xs acc ++ [⟨ms⟩] := by
  induction xs with
  | nil =>
    intro acc
    simp only [List.nil_append]
    unfold splitOnCharAux
    rw [if_pos rfl]
    rw [splitOnCharAux_no_sep sep ms h []]
    simp [splitOnCharAux]
  | cons c cs ih =>
    intro acc
    by_cases hc : c = sep
    · simp only [List.cons_append]
      unfold splitOnCharAux
      rw [if_pos hc, if_pos hc]
      rw [ih []]
      simp
    · simp only [List.cons_append]
      unfold splitOnCharAux
      rw [if_neg hc, if_neg hc]
      exact ih (c :: acc)

theorem inclAux_mono_prefix (t1 t2 : List Char) (hp : t1.isPrefixOf t2 = true) :
    ∀ hay : List Char, inclAux t2 hay = true → inclAux t1 hay = true := by
  intro hay
  induction hay with
  | nil =>
    intro h
    unfold inclAux at h
    rcases (Bool.or_eq_true _ _).mp h with h2 | h2
    · have ht2 : t2 = [] := by
        have := List.isPrefixOf_iff_prefix.mp h2
        exact List.prefix_nil.mp this
      unfold inclAux
      apply (Bool.or_eq_true _ _).mpr
      left
      apply List.isPrefixOf_iff_prefix.mpr
      rw [ht2] at hp
      exact List.isPrefixOf_iff_prefix.mp hp
    · exact absurd h2 (by simp)
  | cons c rest ih =>
    intro h
    unfold inclAux at h
    rcases (Bool.or_eq_true _ _).mp h with h2 | h2
    · unfold inclAux
      apply (Bool.or_eq_true _ _).mpr
      left
      apply List.isPrefixOf_iff_prefix.mpr
      exact (List.isPrefixOf_iff_prefix.mp hp).trans (List.isPrefixOf_iff_prefix.mp h2)
    · unfold inclAux
      apply (Bool.or_eq_true _ _).mpr
      right
      exact ih h2

theorem geolocateIp_loopback (token : String) (net : String → Option GeoResp)
    (now : Int) (cache : GeoCache) (ipRaw : String)
    (hloop : stripMapped ipRaw = "127.0.0.1" ∨ stripMapped ipRaw = "::1") :
    geolocateIp token net now cache ipRaw = (none, cache, false) := by
  unfold geolocateIp
  by_cases ht : token = ""
  · rw [if_pos ht]
  · rw [if_neg ht]
    by_cases he : ipRaw = ""
    · rw [if_pos he]
    · rw [if_neg he]
      rw [if_pos hloop]

/-- The limiter/store state reached by `n ≤ max` identical same-key
submissions inside one window: the key's counter is `n` and exactly `n`
visits were persisted. -/
theorem runTrackN_state (key : String) (v : Visit) (now : Int) :
    ∀ n : Nat, n ≤ limiterMax →
      (runTrackN key v now n).limiter =
        { windowStart := now, hits := if n = 0 then [] else [(key, n)] } ∧
      (runTrackN key v now n).store.length = n := by
  intro n
  induction n with
  | zero =>
    intro _
    exact ⟨rfl, rfl⟩
  | succ n ih =>
    intro hle
    obtain ⟨hlim, hlen⟩ := ih (by omega)
    have hstep : runTrackN key v now (n + 1) =
        (trackStep (runTrackN key v now n) now key v).1 := rfl
    rw [hstep]
    unfold trackStep limiterCheck
    rw [hlim]
    have hreset : ¬ (now - now ≥ limiterWindowMs) := by
      unfold limiterWindowMs
      omega
    rw [if_neg hreset]
    have hcount : limiterCount (if n = 0 then [] else [(key, n)]) key = n := by
      by_cases hn : n = 0
      · rw [if_pos hn, hn]
        rfl
      · rw [if_neg hn]
        unfold limiterCount
        simp [List.find?]
    have hfil : List.filter (fun e => decide (e.1 ≠ key)) (if n = 0 then [] else [(key, n)]) =
        ([] : List (String × Nat)) := by
      by_cases hn : n = 0
      · rw [if_pos hn]
        rfl
      · rw [if_neg hn]
        simp
    simp only [hcount, hfil, decide_eq_true hle, if_true]
    refine ⟨by simp, ?_⟩
    simp [hlen]

theorem storeRecords_append_bad (file m : String)
    (hm : parseVisitLine m = none) (hnl : ('\n' : Char) ∉ m.data) :
    storeRecords (file ++ "\n" ++ m) = storeRecords file := by
  unfold storeRecords splitOnChar
  have hdata : (file ++ "\n" ++ m).data = file.data ++ '\n' :: m.data := by
    rw [String.data_append, String.data_append]
    have hnlc : ("\n" : String).data = ['\n'] := rfl
    rw [hnlc]
    simp
  rw [hdata, splitOnCharAux_append_sep '\n' m.data hnl file.data []]
  rw [List.filter_append, List.filterMap_append]
  have : List.filterMap parseVisitLine (List.filter (fun l => l ≠ "") [(⟨m.data⟩ : String)]) = [] := by
    by_cases hme : (⟨m.data⟩ : String) = ""
    · rw [List.filter_cons]
      simp [hme]
    · rw [List.filter_cons]
      have : ((⟨m.data⟩ : String) ≠ "") = true := by
        simp [hme]
      simp only [this, decide_True, if_pos]
      have hms : (⟨m.data⟩ : String) = m := by
        cases m
        rfl
      simp [List.filterMap, hms, hm]
  rw [this, List.append_nil]

/-! ## Claims -/

/-- C3: every request to `/api/search` or to the legacy `/api/hits`
endpoint made without a valid authenticated session fails with HTTP 401
Unauthorized and returns no rows, regardless of the store's contents. -/
theorem spec_c3_auth_gate (sess : Option AdminSession) (file : String)
    (query : SearchQuery) (h : requireAuth sess = false) :
    apiSearch sess file query = SearchResponse.unauthorized ∧
    apiHits sess file = SearchResponse.unauthorized := by
  unfold apiSearch apiHits
  rw [h]
  exact ⟨rfl, rfl⟩

theorem spec_c3_auth_gate_witness :
    requireAuth none = false ∧
    (apiSearch none sampleLog { q := none, limit := none, offset := none } =
        SearchResponse.unauthorized ∧
      apiHits none sampleLog = SearchResponse.unauthorized) :=
  ⟨by decide,
   spec_c3_auth_gate none sampleLog { q := none, limit := none, offset := none }
     (by decide)⟩

/-- C10: in the file-backed variant, a present but non-numeric `limit`
query parameter makes `parseInt` yield `NaN`, the `Math.min` cap stays
`NaN`, and the slice over the filtered records is empty — the request
succeeds with zero rows (no default limit of 200, no validation error). -/
theorem spec_c10_nan_limit (sess : Option AdminSession) (file : String)
    (qp op : Option String) (ls : String)
    (hauth : requireAuth sess = true)
    (hls : parseIntJS ls = none) (hne : ls ≠ "") :
    apiSearch sess file { q := qp, limit := some ls, offset := op } =
      SearchResponse.rows [] := by
  unfold apiSearch
  rw [hauth]
  have h1 : jsOrStr (some ls) "200" = ls := by
    show (if ls = "" then "200" else ls) = ls
    rw [if_neg hne]
  have h2 : jsMinNaN (parseIntJS (jsOrStr (some ls) "200")) 2000 = none := by
    rw [h1, hls]
    rfl
  have h3 : ∀ (f q : String) (off : Int), readVisits f q none off = [] := by
    intro f q off
    unfold readVisits
    simp only [Option.map_none']
    exact jsSlice_nan _ _
  simp only [if_true, h2, h3]

theorem spec_c10_nan_limit_witness :
    requireAuth (some { authed := true }) = true ∧
    parseIntJS "abc" = none ∧ "abc" ≠ "" ∧
    apiSearch (some { authed := true }) sampleLog
        { q := none, limit := some "abc", offset := none } =
      SearchResponse.rows [] :=
  ⟨by decide, rfl, by decide,
   spec_c10_nan_limit (some { authed := true }) sampleLog none none "abc"
     (by decide) rfl (by decide)⟩

/-- C2 (code bug): the `join-admin` handler admits a connection that holds
no valid authenticated AdminSession — `socket.join('admins')` runs
unconditionally, so the unauthenticated connection ends up inside the
admin broadcast group and is a recipient of the next `visit` event,
contradicting the spec's requirement that such a join be rejected. -/
theorem spec_c2_join_admitted_without_session :
    (joinAdminHandler { sessionAuthed := false, rooms := [] }).sessionAuthed
        = false ∧
    inAdminsRoom (joinAdminHandler { sessionAuthed := false, rooms := [] })
        = true ∧
    joinAdminHandler { sessionAuthed := false, rooms := [] } ∈
      visitRecipients [joinAdminHandler { sessionAuthed := false, rooms := [] }] := by
  decide

/-- C4: records come back newest-first: whenever record `A` (index `i`)
was appended to the log before record `B` (index `j > i`), the empty-term
query returns `B` at a strictly earlier position than `A`. -/
theorem spec_c4_newest_first (file : String) (limit i j : Nat)
    (hlim : (storeRecords file).length ≤ limit) (hij : i < j)
    (hj : j < (storeRecords file).length) :
    (readVisits file "" (some (limit : Int)) 0).length =
        (storeRecords file).length ∧
    (storeRecords file).length - 1 - j < (storeRecords file).length - 1 - i ∧
    (readVisits file "" (some (limit : Int)) 0)[(storeRecords file).length - 1 - j]? =
      (storeRecords file)[j]? ∧
    (readVisits file "" (some (limit : Int)) 0)[(storeRecords file).length - 1 - i]? =
      (storeRecords file)[i]? := by
  have hrv : readVisits file "" (some (limit : Int)) 0 =
      (storeRecords file).reverse := by
    rw [readVisits_eq_full file "" limit hlim]
    unfold termFilter
    rw [if_neg (fun hc => hc rfl)]
  rw [hrv]
  refine ⟨List.length_reverse _, by omega, ?_, ?_⟩
  · have hb : (storeRecords file).length - 1 - j < (storeRecords file).length := by
      omega
    rw [List.getElem?_reverse hb]
    have hidx : (storeRecords file).length - 1 -
        ((storeRecords file).length - 1 - j) = j := by omega
    rw [hidx]
  · have hb : (storeRecords file).length - 1 - i < (storeRecords file).length := by
      omega
    rw [List.getElem?_reverse hb]
    have hidx : (storeRecords file).length - 1 -
        ((storeRecords file).length - 1 - i) = i := by omega
    rw [hidx]

theorem spec_c4_newest_first_witness :
    ((storeRecords sampleLog).length ≤ 2 ∧ 0 < 1 ∧
      1 < (storeRecords sampleLog).length) ∧
    ((readVisits sampleLog "" (some ((2 : Nat) : Int)) 0).length =
        (storeRecords sampleLog).length ∧
      (storeRecords sampleLog).length - 1 - 1 <
        (storeRecords sampleLog).length - 1 - 0 ∧
      (readVisits sampleLog "" (some ((2 : Nat) : Int)) 0)[(storeRecords sampleLog).length - 1 - 1]? =
        (storeRecords sampleLog)[1]? ∧
      (readVisits sampleLog "" (some ((2 : Nat) : Int)) 0)[(storeRecords sampleLog).length - 1 - 0]? =
        (storeRecords sampleLog)[0]?) :=
  ⟨⟨by decide, by decide, by decide⟩,
   spec_c4_newest_first sampleLog 2 0 1 (by decide) (by decide) (by decide)⟩

/-- C5: a stored record is returned by `query(term)` exactly when the
lowercased term is a substring of the record's search blob — the
space-joined, lowercased concatenation of its `ip`, `path`, `userAgent`
(`ua`) and `referer` fields followed by the `geo` `city`/`region`/`country`
fields when present — and the empty term matches every record. -/
theorem spec_c5_term_match (file term : String) (limit : Nat) (v : JValue)
    (hlim : (storeRecords file).length ≤ limit) :
    (v ∈ readVisits file term (some (limit : Int)) 0 ↔
      v ∈ storeRecords file ∧ matchesTerm term v = true) ∧
    matchesTerm "" v = true := by
  refine ⟨?_, strIncludes_empty_needle (blob v)⟩
  rw [readVisits_eq_full file term limit hlim]
  unfold termFilter
  by_cases h : lowerStr term = ""
  · rw [if_neg (fun hc => hc h)]
    unfold matchesTerm
    rw [h]
    simp [List.mem_reverse, strIncludes_empty_needle]
  · rw [if_pos h]
    unfold matchesTerm
    simp [List.mem_filter, List.mem_reverse]

theorem spec_c5_term_match_witness :
    (storeRecords sampleLog).length ≤ 2 ∧
    ((recordB ∈ readVisits sampleLog "SPRINGF" (some ((2 : Nat) : Int)) 0 ↔
        recordB ∈ storeRecords sampleLog ∧
          matchesTerm "SPRINGF" recordB = true) ∧
      matchesTerm "" recordB = true) :=
  ⟨by decide, spec_c5_term_match sampleLog "SPRINGF" 2 recordB (by decide)⟩

/-- C6: filtering only narrows: any record returned by `query(term)` is
also returned by `query('')`, and when a term is lengthened so that no new
matches are introduced (every record matching the longer term `t2` matches
the shorter `t1`), the result count is monotonically non-increasing, for
any fixed limit and offset. -/
theorem spec_c6_query_subset_monotone (file t1 t2 term : String)
    (limit offset : Nat) (v : JValue)
    (hlim : (storeRecords file).length ≤ limit)
    (hmono : ∀ r : JValue, matchesTerm t2 r = true → matchesTerm t1 r = true) :
    (v ∈ readVisits file term (some (limit : Int)) 0 →
      v ∈ readVisits file "" (some (limit : Int)) 0) ∧
    (readVisits file t2 (some (limit : Int)) ((offset : Nat) : Int)).length ≤
      (readVisits file t1 (some (limit : Int)) ((offset : Nat) : Int)).length := by
  constructor
  · intro hv
    rw [readVisits_eq_full file term limit hlim] at hv
    rw [readVisits_eq_full file "" limit hlim]
    unfold termFilter
    rw [if_neg (fun hc => hc rfl)]
    exact mem_of_mem_termFilter hv
  · unfold readVisits
    simp only [Option.map_some']
    rw [jsSlice_length_nat, jsSlice_length_nat]
    have hm := termFilter_length_mono t1 t2 ((storeRecords file).reverse) hmono
    omega

theorem spec_c6_query_subset_monotone_witness :
    ((storeRecords sampleLog).length ≤ 2 ∧
      (∀ r : JValue, matchesTerm "springfield" r = true →
        matchesTerm "spring" r = true)) ∧
    ((recordB ∈ readVisits sampleLog "BOT" (some ((2 : Nat) : Int)) 0 →
        recordB ∈ readVisits sampleLog "" (some ((2 : Nat) : Int)) 0) ∧
      (readVisits sampleLog "springfield" (some ((2 : Nat) : Int))
          (((0 : Nat) : Nat) : Int)).length ≤
        (readVisits sampleLog "spring" (some ((2 : Nat) : Int))
          (((0 : Nat) : Nat) : Int)).length) :=
  ⟨⟨by decide,
    fun r h =>
      inclAux_mono_prefix (lowerStr "spring").data (lowerStr "springfield").data
        (by decide) (blob r).data h⟩,
   spec_c6_query_subset_monotone sampleLog "spring" "springfield" "BOT" 2 0
     recordB (by decide)
     (fun r h =>
       inclAux_mono_prefix (lowerStr "spring").data (lowerStr "springfield").data
         (by decide) (blob r).data h)⟩

/-- C8: an unparseable (e.g. truncated) trailing log line is skipped: the
query over the log with the malformed last line appended returns exactly
what it returns over the log without it, for every term, limit and offset
— all prior valid records survive and no error is raised (the read path is
a total function). -/
theorem spec_c8_malformed_tail (file m q : String) (limit : Option Int)
    (offset : Int) (hm : parseVisitLine m = none)
    (hnl : ('\n' : Char) ∉ m.data) :
    readVisits (file ++ "\n" ++ m) q limit offset =
      readVisits file q limit offset := by
  unfold readVisits
  rw [storeRecords_append_bad file m hm hnl]

theorem spec_c8_malformed_tail_witness :
    parseVisitLine truncatedLine = none ∧
    ('\n' : Char) ∉ truncatedLine.data ∧
    readVisits (lineA ++ "\n" ++ truncatedLine) "" (some 500) 0 =
      readVisits lineA "" (some 500) 0 :=
  ⟨rfl, by decide,
   spec_c8_malformed_tail lineA truncatedLine "" (some 500) 0 rfl (by decide)⟩

/-- C7 (from the spec's rate-limit contract for the externally provided
middleware, configured with `windowMs = 60000, max = 120`): within one
fixed window, the 120th same-key `/track` submission is accepted (and all
of the first 120 were persisted — the store holds 120 records), while the
121st is rejected with a rate-limit error and leaves the store unchanged. -/
theorem spec_c7_rate_limit_window :
    (trackStep (runTrackN "203.0.113.5" sampleVisit 0 119) 0 "203.0.113.5"
        sampleVisit).2 = TrackOutcome.accepted ∧
    (runTrackN "203.0.113.5" sampleVisit 0 120).store.length = 120 ∧
    (trackStep (runTrackN "203.0.113.5" sampleVisit 0 120) 0 "203.0.113.5"
        sampleVisit).2 = TrackOutcome.rateLimited ∧
    (trackStep (runTrackN "203.0.113.5" sampleVisit 0 120) 0 "203.0.113.5"
        sampleVisit).1.store = (runTrackN "203.0.113.5" sampleVisit 0 120).store := by
  obtain ⟨h119, _⟩ := runTrackN_state "203.0.113.5" sampleVisit 0 119 (by decide)
  obtain ⟨h120, hlen120⟩ := runTrackN_state "203.0.113.5" sampleVisit 0 120 (by decide)
  refine ⟨?_, hlen120, ?_, ?_⟩
  · unfold trackStep limiterCheck
    rw [h119]
    simp [limiterWindowMs, limiterMax, limiterCount, List.find?]
  · unfold trackStep limiterCheck
    rw [h120]
    simp [limiterWindowMs, limiterMax, limiterCount, List.find?]
  · unfold trackStep limiterCheck
    rw [h120]
    simp [limiterWindowMs, limiterMax, limiterCount, List.find?]

/-- C1 (amended): with anonymization enabled the raw client IP never
reaches the store or the realtime channel, but the two variants differ on
what the stored field is.  File-backed variant: the persisted record's
`ip` and the emitted payload's `ip` are both the fixed placeholder
`'[anon]'`.  Sqlite variant: the emitted payload's `ip` is `'[anon]'`,
while the *stored* `ip` is the bcrypt digest of the raw IP — a digest
(prefix `"$2b$"`) is never the raw IP itself, but it is not the fixed
placeholder, which is what the counterexample below exhibits. -/
theorem spec_c1_anonymization_amended (token : String)
    (net : String → Option GeoResp) (cache : GeoCache) (nowMs nowMs2 : Int)
    (req req2 : TrackRequest) (bhash : String → String)
    (hb : ("$2b$".data).isPrefixOf (bhash (getClientIpSql req2)).data = true)
    (hr : ("$2b$".data).isPrefixOf (getClientIpSql req2).data = false) :
    (handleTrack true token net cache nowMs req).visit.ip = "[anon]" ∧
    (handleTrack true token net cache nowMs req).emitted.ip = "[anon]" ∧
    (handleTrackSql true bhash nowMs2 req2).storedIp =
        bhash (getClientIpSql req2) ∧
    (handleTrackSql true bhash nowMs2 req2).storedIp ≠ getClientIpSql req2 ∧
    (handleTrackSql true bhash nowMs2 req2).emittedIp = "[anon]" := by
  refine ⟨rfl, rfl, rfl, ?_, rfl⟩
  intro heq
  have hst : (handleTrackSql true bhash nowMs2 req2).storedIp =
      bhash (getClientIpSql req2) := rfl
  rw [hst] at heq
  rw [heq] at hb
  rw [hb] at hr
  exact Bool.noConfusion hr

theorem spec_c1_anonymization_amended_witness :
    (("$2b$".data).isPrefixOf
        (bcryptHashModel (getClientIpSql reqForwarded)).data = true ∧
      ("$2b$".data).isPrefixOf (getClientIpSql reqForwarded).data = false) ∧
    ((handleTrack true "tok" netSample [] 0 reqForwarded).visit.ip = "[anon]" ∧
      (handleTrack true "tok" netSample [] 0 reqForwarded).emitted.ip = "[anon]" ∧
      (handleTrackSql true bcryptHashModel 0 reqForwarded).storedIp =
          bcryptHashModel (getClientIpSql reqForwarded) ∧
      (handleTrackSql true bcryptHashModel 0 reqForwarded).storedIp ≠
          getClientIpSql reqForwarded ∧
      (handleTrackSql true bcryptHashModel 0 reqForwarded).emittedIp = "[anon]") :=
  ⟨⟨by decide, by decide⟩,
   spec_c1_anonymization_amended "tok" netSample [] 0 0 reqForwarded
     reqForwarded bcryptHashModel (by decide) (by decide)⟩

/-- C1 counterexample: in the sqlite variant with anonymization enabled,
the `ip` column bound on insert is the bcrypt digest of the raw client IP,
not the fixed placeholder `'[anon]'` — the claim's "the stored `ip` field
equals the fixed placeholder" is false at this concrete request. -/
theorem spec_c1_counterexample :
    (handleTrackSql true bcryptHashModel 5000 reqForwarded).storedIp ≠
      "[anon]" := by
  decide

/-- C9 (amended): geo resolution is skipped for *every* ingestion when
anonymization is active — any request `req`, whatever its client address:
no outbound fetch, `geo` absent in the stored record — and, with
anonymization off, for every request `reqL` whose client address is
loopback (`127.0.0.1` or `::1` after stripping the IPv6-mapped prefix,
the guard the code actually implements).  Private-range addresses are
*not* excluded; see the counterexample. -/
theorem spec_c9_geo_guard_amended (token : String)
    (net : String → Option GeoResp) (cache : GeoCache) (nowMs : Int)
    (req reqL : TrackRequest)
    (hloop : stripMapped (getClientIp reqL) = "127.0.0.1" ∨
      stripMapped (getClientIp reqL) = "::1") :
    ((handleTrack true token net cache nowMs req).fetched = false ∧
      (handleTrack true token net cache nowMs req).visit.geo = none) ∧
    ((handleTrack false token net cache nowMs reqL).fetched = false ∧
      (handleTrack false token net cache nowMs reqL).visit.geo = none) := by
  have hg := geolocateIp_loopback token net nowMs cache (getClientIp reqL) hloop
  refine ⟨⟨rfl, rfl⟩, ?_, ?_⟩
  · show (geolocateIp token net nowMs cache (getClientIp reqL)).2.2 = false
    rw [hg]
  · show (geolocateIp token net nowMs cache (getClientIp reqL)).1 = none
    rw [hg]

theorem spec_c9_geo_guard_amended_witness :
    (stripMapped (getClientIp reqLoopback) = "127.0.0.1" ∨
      stripMapped (getClientIp reqLoopback) = "::1") ∧
    (((handleTrack true "tok" netSample [] 0 reqForwarded).fetched = false ∧
      (handleTrack true "tok" netSample [] 0 reqForwarded).visit.geo = none) ∧
      ((handleTrack false "tok" netSample [] 0 reqLoopback).fetched = false ∧
        (handleTrack false "tok" netSample [] 0 reqLoopback).visit.geo = none)) :=
  ⟨Or.inl (by decide),
   spec_c9_geo_guard_amended "tok" netSample [] 0 reqForwarded reqLoopback
     (Or.inl (by decide))⟩

/-- C9 counterexample: an ingestion from the private-range client address
`10.0.0.1` (anonymization off, token configured, empty cache) *does*
perform an outbound geo lookup and stores a geo value — the claim's "never
performed for ... private client addresses" is false on the code, which
only guards the two loopback forms. -/
theorem spec_c9_counterexample :
    (handleTrack false "tok" netSample [] 0 reqPrivate).fetched = true ∧
    (handleTrack false "tok" netSample [] 0 reqPrivate).visit.geo =
      some { city := "Springfield", region := "IL", country := "US" } := by
  decide

end IpTracker
